import Mathlib

set_option maxHeartbeats 1000000

/-!
Verification development for the filetoolkit repository: a shallow embedding of
the upload degrade-chain handler (`app/api/upload/route.ts`, given here as
`uploadPOST`), the local heuristic analyzer (`lib/localAnalyzer.ts`), the
instruction CRUD handlers (`app/api/instructions/route.ts` and the serverless
variant), and the generate-feedback / fill-pmp-checklist sub-actions.

Modelling conventions:
- `process.env` variables are `Option String`; JavaScript truthiness of a
  `string | undefined` value (undefined and the empty string are falsy) is
  `truthyStr`.
- External calls (Google Drive upload, Gemini inference) are oracles: either a
  returned value or a thrown exception message.
- Filesystem reads on the transient file are an oracle (`FsView`); `none`
  models a thrown exception.
- Machine arithmetic: byte values are `Nat`; the float arithmetic inside
  `formatFileSize` (`Math.log`/`Math.round`) is modelled by exact natural
  arithmetic with half-up rounding.
-/

/-- Environment credentials read by the handlers, `none` models an unset variable. -/
structure Env where
  googleProjectId : Option String
  googlePrivateKey : Option String
  googleServiceAccountEmail : Option String
  geminiApiKey : Option String
deriving DecidableEq

/-- JS truthiness of a `string | null | undefined` value: `undefined`, `null`
and the empty string are falsy. -/
def truthyStr (v : Option String) : Bool := v.getD "" ≠ ""

/-- JS `x || null` on a nullable string: falsy values collapse to `null`. -/
def jsOrNull (v : Option String) : Option String :=
  match v with
  | some s => if s = "" then none else some s
  | none => none

/-- The upload handler's check `!!(GOOGLE_PROJECT_ID && GOOGLE_PRIVATE_KEY && GOOGLE_SERVICE_ACCOUNT_EMAIL)`. -/
def Env.hasGoogleDrive (e : Env) : Bool :=
  truthyStr e.googleProjectId && truthyStr e.googlePrivateKey &&
    truthyStr e.googleServiceAccountEmail

/-- The handlers' check `!!process.env.GEMINI_API_KEY`. -/
def Env.hasGemini (e : Env) : Bool := truthyStr e.geminiApiKey

/-- Substring test, JS `String.prototype.includes`. -/
def containsSub (hay needle : String) : Bool :=
  hay.data.tails.any (fun t => needle.data.isPrefixOf t)

/-- ASCII lowering, standing in for JS `String.prototype.toLowerCase` (the
names and extensions compared here are ASCII). -/
def lowerChar (c : Char) : Char :=
  if 65 ≤ c.toNat ∧ c.toNat ≤ 90 then Char.ofNat (c.toNat + 32) else c

def asciiLower (s : String) : String := String.mk (s.data.map lowerChar)

/-- JS `String.prototype.endsWith`. -/
def strEndsWith (s suf : String) : Bool := suf.data.isSuffixOf s.data

/-- JS `String.prototype.split` with a single-character separator. -/
def splitOnChar (c : Char) : List Char → List (List Char)
  | [] => [[]]
  | x :: xs =>
    match splitOnChar c xs with
    | [] => [[x]]
    | h :: t => if x = c then [] :: h :: t else (x :: h) :: t

/-- Result of `fs.statSync` on the transient file. -/
structure FileStats where
  size : Nat
  mtimeIso : String
deriving DecidableEq

/-- What the local filesystem returns for the transient file: `none` models a
thrown exception of `statSync` / `readFileSync` respectively. -/
structure FsView where
  statResult : Option FileStats
  readResult : Option String
deriving DecidableEq

/-- The `fileInfo` echo of the local analyzer's result. -/
structure FileInfo where
  name : String
  size : Nat
  extension : String
  lastModified : String
deriving DecidableEq

/-- Shape of the analysis payload returned by both the local analyzer and the
Gemini service (`success`, `feedback`, `timestamp`, optional `fileInfo` and
`error`). -/
structure AnalysisResult where
  success : Bool
  feedback : String
  timestamp : String
  fileInfo : Option FileInfo
  error : Option String
deriving DecidableEq

/-- Node `path.extname`: the substring of the basename from its last dot, the
empty string when there is no dot or the only dot is the leading character.
(The Node special case for a basename of exactly `..` is included.) -/
def extnameJs (p : String) : String :=
  let base := String.mk ((splitOnChar (Char.ofNat 47) p.data).getLastD [])
  if base = ".." then ""
  else
    let cs := base.data
    let dotIdxs := (List.range cs.length).filter (fun i => cs.getD i ' ' = '.')
    match dotIdxs.getLast? with
    | none => ""
    | some 0 => ""
    | some i => String.mk (cs.drop i)

namespace LocalAnalyzer

/-- The text-extension table of `LocalAnalyzer.isTextFile`. -/
def textExtensions : List String :=
  [".txt", ".md", ".csv", ".json", ".xml", ".js", ".ts", ".html", ".css",
   ".py", ".java", ".cpp", ".c", ".h", ".yaml", ".yml", ".toml", ".ini", ".log"]

def isTextFile (extension : String) : Bool := textExtensions.contains extension

/-- One row of the `getFileTypeAnalysis` table. -/
structure FileTypeAnalysis where
  type : String
  description : String
  recommendations : String
deriving DecidableEq

def getFileTypeAnalysis (extension : String) : FileTypeAnalysis :=
  if extension = ".xlsx" then
    { type := "Excel Spreadsheet"
      description := "Microsoft Excel spreadsheet file. This is a binary format that typically contains structured data in rows and columns across multiple sheets."
      recommendations := "- Verify data integrity across all sheets\n- Check for formula errors\n- Validate data consistency\n- Consider CSV export for compatibility" }
  else if extension = ".xls" then
    { type := "Legacy Excel Spreadsheet"
      description := "Older Microsoft Excel format. May have compatibility issues with newer software."
      recommendations := "- Consider converting to .xlsx format\n- Backup before conversion\n- Test with target applications" }
  else if extension = ".csv" then
    { type := "Comma-Separated Values"
      description := "Plain text file with comma-separated data. Widely compatible and easy to process."
      recommendations := "- Verify delimiter consistency\n- Check for proper quoting of text fields\n- Validate data types in each column" }
  else if extension = ".pdf" then
    { type := "Portable Document Format"
      description := "Fixed-layout document format. Good for sharing formatted documents."
      recommendations := "- Ensure text is selectable (not scanned image)\n- Check accessibility features\n- Verify font embedding for compatibility" }
  else if extension = ".docx" then
    { type := "Word Document"
      description := "Microsoft Word document in modern XML format."
      recommendations := "- Check for track changes and comments\n- Verify formatting consistency\n- Consider PDF export for final distribution" }
  else if extension = ".txt" then
    { type := "Plain Text"
      description := "Simple text file without formatting. Universally compatible."
      recommendations := "- Check character encoding (UTF-8 recommended)\n- Verify line endings for target platform\n- Consider structured format if data is complex" }
  else if extension = ".json" then
    { type := "JSON Data"
      description := "JavaScript Object Notation data file. Structured data format."
      recommendations := "- Validate JSON syntax\n- Check data structure consistency\n- Consider schema validation" }
  else
    { type := "Unknown File Type"
      description := "File with extension " ++ (if extension = "" then "none" else extension) ++ " - binary or unsupported format."
      recommendations := "- Verify file integrity\n- Check if specialized software is needed\n- Consider format conversion if needed" }

/-- Word count of `analyzeTextContent`: split on whitespace runs, keep
non-empty pieces. -/
def isWsChar (c : Char) : Bool :=
  [9, 10, 11, 12, 13, 32, 160, 5760, 8192, 8193, 8194, 8195, 8196, 8197, 8198,
   8199, 8200, 8201, 8202, 8232, 8233, 8239, 8287, 12288, 65279].contains c.toNat

def countWordsAux : List Char → Bool → Nat
  | [], _ => 0
  | c :: cs, inWord =>
    if isWsChar c then countWordsAux cs false
    else (if inWord then 0 else 1) + countWordsAux cs true

def countWords (content : String) : Nat := countWordsAux content.data false

def analyzeTextContent (content : String) : String :=
  let lines := splitOnChar (Char.ofNat 10) content.data
  let wordCount := countWords content
  let charCount := content.data.length
  let issues : List String :=
    (if containsSub content "\r\n" && containsSub content "\n" then
      ["Mixed line endings detected"] else []) ++
    (if containsSub content "\t" && containsSub content "  " then
      ["Mixed indentation (tabs and spaces)"] else [])
  let analysis := "\n### Content Analysis\n- **Lines**: " ++ toString lines.length ++
    "\n- **Words**: " ++ toString wordCount ++
    "\n- **Characters**: " ++ toString charCount ++ "\n"
  let analysis := analysis ++
    (if containsSub content "," && lines.length > 1 then
      "\n- **Possible CSV data detected**" else "")
  let analysis := analysis ++
    (if content.data.contains (Char.ofNat 123) && content.data.contains (Char.ofNat 125) then
      "\n- **Possible JSON structure detected**" else "")
  if issues.length > 0 then
    analysis ++ "\n\n### Potential Issues\n" ++
      String.intercalate "\n" (issues.map (fun issue => "- " ++ issue))
  else analysis

/-- The analyzer's human-readable size, `Math.round(bytes / 1024 ^ i * 100) / 100`
with exact half-up rounding standing in for the float computation. -/
def formatFileSize (bytes : Nat) : String :=
  if bytes = 0 then "0 Bytes"
  else
    let sizes := ["Bytes", "KB", "MB", "GB"]
    let i := if bytes < 1024 then 0
      else if bytes < 1024 ^ 2 then 1
      else if bytes < 1024 ^ 3 then 2
      else if bytes < 1024 ^ 4 then 3
      else 4
    let p := 1024 ^ i
    let n100 := (bytes * 100 + p / 2) / p
    let whole := n100 / 100
    let frac := n100 % 100
    let numStr :=
      if frac = 0 then toString whole
      else if frac % 10 = 0 then toString whole ++ "." ++ toString (frac / 10)
      else if frac < 10 then toString whole ++ ".0" ++ toString frac
      else toString whole ++ "." ++ toString frac
    numStr ++ " " ++ sizes.getD i "undefined"

/-- `LocalAnalyzer.analyzeFile`: builds the baseline feedback report; on a
`statSync` exception it returns the fixed error-path record. -/
def analyzeFile (fsv : FsView) (fileName : String) (instructionFileUrl : String)
    (nowIso : String) : AnalysisResult :=
  match fsv.statResult with
  | none =>
    { success := false
      error := some "Failed to analyze file locally"
      feedback := "Could not perform local file analysis. Please check file permissions and try again."
      timestamp := nowIso
      fileInfo := none }
  | some stats =>
    let extension := asciiLower (extnameJs fileName)
    let fta := getFileTypeAnalysis extension
    let contentAnalysis :=
      if isTextFile extension then
        match fsv.readResult with
        | some content => analyzeTextContent content
        | none => "Could not read file content for analysis."
      else ""
    { success := true
      feedback :=
        "## File Analysis Report\n\n### File Information\n- **Name**: " ++ fileName ++
        "\n- **Type**: " ++ fta.type ++
        "\n- **Size**: " ++ formatFileSize stats.size ++
        "\n- **Extension**: " ++ (if extension = "" then "none" else extension) ++
        "\n\n### File Type Analysis\n" ++ fta.description ++
        "\n\n" ++ contentAnalysis ++
        "\n\n### Instructions Provided\n" ++
        (if instructionFileUrl ≠ "" then
          "Instruction file URL provided: " ++ instructionFileUrl ++
          "\n(Local analysis cannot access remote instruction files - upgrade to AI analysis for full instruction support)"
        else "No specific analysis instructions were provided.") ++
        "\n\n### Analysis Limitations\nThis is a basic local analysis. For more detailed AI-powered analysis, configure the Gemini API or wait for rate limits to reset.\n\n### Recommendations\n" ++
        fta.recommendations ++ "\n"
      timestamp := nowIso
      fileInfo := some { name := fileName, size := stats.size, extension := extension,
                         lastModified := stats.mtimeIso }
      error := none }

end LocalAnalyzer

/-- Return shape of `GoogleDriveService.uploadFile`. -/
structure DriveUploadResult where
  fileId : Option String
  publicUrl : Option String
  directUrl : Option String
  success : Bool
  error : Option String
deriving DecidableEq

/-- Outcome of the Drive upload attempt as seen by a caller: a returned value
or a thrown exception message. -/
inductive DriveCall where
  | ret (r : DriveUploadResult)
  | exn (msg : String)
deriving DecidableEq

/-- Return shape of `GeminiService.analyzeFileWithInstruction` (the service
only ever returns with `success := true`; a failure is a thrown exception). -/
structure GeminiAnalysis where
  success : Bool
  feedback : String
  timestamp : String
deriving DecidableEq

/-- Outcome of the Gemini inference call: a returned value or a thrown
exception message. -/
inductive GeminiCall where
  | ret (g : GeminiAnalysis)
  | exn (msg : String)
deriving DecidableEq

/-- The Gemini result as it lands in the unified `analysis` slot of the upload
response (no `fileInfo`, no `error` field). -/
def GeminiAnalysis.toAnalysisResult (g : GeminiAnalysis) : AnalysisResult :=
  { success := g.success, feedback := g.feedback, timestamp := g.timestamp,
    fileInfo := none, error := none }

/-- An uploaded multipart file: name plus raw byte content. -/
structure IncomingFile where
  name : String
  bytes : List Nat
deriving DecidableEq

/-- The fields read from an instruction's `.meta.json` by the upload handler. -/
structure InstrMeta where
  directUrl : Option String
  publicUrl : Option String
deriving DecidableEq

/-- The `file` object of the upload response. -/
structure UploadFileField where
  name : String
  size : Nat
  fileId : Option String
  publicUrl : Option String
  directUrl : Option String
deriving DecidableEq

/-- The `serviceStatus` summary of the upload response. -/
structure ServiceStatus where
  localAnalysis : Bool
  googleDrive : String
  geminiAnalysis : String
deriving DecidableEq

/-- The success JSON body of the upload response. -/
structure UploadSuccess where
  success : Bool
  file : UploadFileField
  analysis : AnalysisResult
  serviceStatus : ServiceStatus
  message : String
deriving DecidableEq

/-- The upload endpoint's possible JSON responses with their HTTP status. -/
inductive UploadResponse where
  | ok (r : UploadSuccess)
  | clientError (status : Nat) (error : String)
  | serverError (status : Nat) (error : String) (details : String)
deriving DecidableEq

def getStatusMessage (st : ServiceStatus) : String :=
  if st.googleDrive = "success" && st.geminiAnalysis = "success" then
    "File uploaded to Google Drive and analyzed with AI successfully!"
  else if st.localAnalysis && st.googleDrive = "success" then
    "File uploaded to Google Drive with local analysis (AI analysis unavailable)."
  else if st.localAnalysis then
    "File analyzed locally. Configure Google Drive and Gemini API for enhanced features."
  else
    "File processed with limited features. Check configuration and try again."

/-- Lifecycle events of the transient local file of one request. -/
inductive TempEvent where
  | write
  | delete
deriving DecidableEq

/-- Whether the transient file exists after a sequence of events. -/
def tempExists (trace : List TempEvent) : Bool :=
  trace.foldl (fun _ e => match e with | TempEvent.write => true | TempEvent.delete => false) false

/-- The `finally` block of the upload handlers: when a temp path was recorded
and the file still exists, it is unlinked. -/
def finallyCleanup (pathSet : Bool) (trace : List TempEvent) : List TempEvent :=
  if pathSet && tempExists trace then trace ++ [TempEvent.delete] else trace

/-- Lines 34-49 of the upload handler: resolve the optional instruction id to
a remote URL via its `.meta.json` (`metadata.directUrl || metadata.publicUrl`). -/
def resolveInstructionUrl (instructionFileId : Option String) (instrMeta : Option InstrMeta) :
    Option String :=
  if truthyStr instructionFileId then
    match instrMeta with
    | some m => if truthyStr m.directUrl then m.directUrl else m.publicUrl
    | none => none
  else none

/-- Lines 61-83 of the upload handler: the Drive attempt, yielding
`(uploadResult, driveError)`. -/
def driveOutcome (env : Env) (drive : DriveCall) :
    Option DriveUploadResult × Option String :=
  if env.hasGoogleDrive then
    match drive with
    | DriveCall.ret r =>
      if r.success then (some r, none)
      else (none, some (if truthyStr r.error then r.error.getD "" else "Upload failed"))
    | DriveCall.exn msg => (none, some msg)
  else (none, some "Google Drive not configured")

/-- Lines 85-112 of the upload handler: the Gemini attempt, yielding
`(aiAnalysisResult, geminiError)`. -/
def geminiOutcome (env : Env) (uploadResult : Option DriveUploadResult) (gemini : GeminiCall) :
    Option GeminiAnalysis × Option String :=
  if env.hasGemini && uploadResult.isSome &&
      truthyStr (uploadResult.bind (fun u => u.directUrl)) then
    match gemini with
    | GeminiCall.ret g => if g.success then (some g, none) else (some g, some "Analysis failed")
    | GeminiCall.exn msg => (none, some msg)
  else if !env.hasGemini then (none, some "Gemini API not configured")
  else if uploadResult.isNone then (none, some "No file URL available for AI analysis")
  else (none, none)

/-- Lines 97-99: a successful AI analysis replaces the local one. -/
def winningAnalysis (localResult : AnalysisResult) (ai : Option GeminiAnalysis) :
    AnalysisResult :=
  match ai with
  | some g => if g.success then g.toAnalysisResult else localResult
  | none => localResult

/-- The upload handler `POST` of `app/api/upload/route.ts`. Inputs beyond the
request are oracles: the instruction-metadata lookup, the transient-file
filesystem view, the two external services, and `panic`, which models an
unexpected exception thrown by the handler body after the temp write (the
outer `catch`). Returns the response paired with the temp-file event trace. -/
def uploadPOST (env : Env) (file : Option IncomingFile) (instructionFileId : Option String)
    (instrMeta : Option InstrMeta) (fsv : FsView) (nowIso : String)
    (drive : DriveCall) (gemini : GeminiCall) (panic : Option String) :
    UploadResponse × List TempEvent :=
  match file with
  | none => (UploadResponse.clientError 400 "No file provided", finallyCleanup false [])
  | some f =>
    let trace : List TempEvent := [TempEvent.write]
    match panic with
    | some details =>
      (UploadResponse.serverError 500 "Failed to process file upload" details,
        finallyCleanup true trace)
    | none =>
      let instructionFileUrl := resolveInstructionUrl instructionFileId instrMeta
      let analysisLocal := LocalAnalyzer.analyzeFile fsv f.name (instructionFileUrl.getD "") nowIso
      let dOut := driveOutcome env drive
      let uploadResult := dOut.1
      let driveError := dOut.2
      let gOut := geminiOutcome env uploadResult gemini
      let aiAnalysisResult := gOut.1
      let geminiError := gOut.2
      let analysisResult := winningAnalysis analysisLocal aiAnalysisResult
      let serviceStatus : ServiceStatus :=
        { localAnalysis := analysisResult.success
          googleDrive :=
            if uploadResult.isSome then "success"
            else if truthyStr driveError then driveError.getD "" else "failed"
          geminiAnalysis :=
            if aiAnalysisResult.isSome then "success"
            else if truthyStr geminiError then geminiError.getD "" else "unavailable" }
      (UploadResponse.ok
        { success := true
          file := { name := f.name, size := f.bytes.length
                    fileId := jsOrNull (uploadResult.bind (fun u => u.fileId))
                    publicUrl := jsOrNull (uploadResult.bind (fun u => u.publicUrl))
                    directUrl := jsOrNull (uploadResult.bind (fun u => u.directUrl)) }
          analysis := analysisResult
          serviceStatus := serviceStatus
          message := getStatusMessage serviceStatus },
        finallyCleanup true trace)

/-- UTF-8 encoding of one Unicode scalar value (1-4 bytes). -/
def utf8EncodeChar (c : Char) : List Nat :=
  let v := c.toNat
  if v < 0x80 then [v]
  else if v < 0x800 then [0xC0 + v / 64, 0x80 + v % 64]
  else if v < 0x10000 then
    [0xE0 + v / 4096, 0x80 + (v / 64) % 64, 0x80 + v % 64]
  else
    [0xF0 + v / 262144, 0x80 + (v / 4096) % 64, 0x80 + (v / 64) % 64, 0x80 + v % 64]

/-- UTF-8 encoding of a string as a byte list. -/
def utf8Encode (s : String) : List Nat := (s.data.map utf8EncodeChar).flatten

/-- The replacement character U+FFFD emitted for invalid sequences. -/
def replChar : Char := Char.ofNat 0xFFFD

/-- Number of continuation bytes consumed after lead byte `b` by one decoding
step (0 when the sequence is truncated or ill-formed). -/
def seqTail (b : Nat) (rest : List Nat) : Nat :=
  if b < 0x80 then 0
  else if b < 0xC2 then 0
  else if b < 0xE0 then
    match rest with
    | b2 :: _ => if 0x80 ≤ b2 ∧ b2 < 0xC0 then 1 else 0
    | [] => 0
  else if b < 0xF0 then
    match rest with
    | b2 :: b3 :: _ =>
      if ((b = 0xE0 ∧ 0xA0 ≤ b2 ∧ b2 < 0xC0) ∨
          (b = 0xED ∧ 0x80 ≤ b2 ∧ b2 < 0xA0) ∨
          (b ≠ 0xE0 ∧ b ≠ 0xED ∧ 0x80 ≤ b2 ∧ b2 < 0xC0)) ∧
         (0x80 ≤ b3 ∧ b3 < 0xC0) then 2 else 0
    | _ => 0
  else if b < 0xF5 then
    match rest with
    | b2 :: b3 :: b4 :: _ =>
      if ((b = 0xF0 ∧ 0x90 ≤ b2 ∧ b2 < 0xC0) ∨
          (b = 0xF4 ∧ 0x80 ≤ b2 ∧ b2 < 0x90) ∨
          (b ≠ 0xF0 ∧ b ≠ 0xF4 ∧ 0x80 ≤ b2 ∧ b2 < 0xC0)) ∧
         (0x80 ≤ b3 ∧ b3 < 0xC0) ∧ (0x80 ≤ b4 ∧ b4 < 0xC0) then 3 else 0
    | _ => 0
  else 0

/-- The character emitted for the sequence starting at lead byte `b`:
its scalar value when well-formed, U+FFFD otherwise. -/
def seqChar (b : Nat) (rest : List Nat) : Char :=
  if b < 0x80 then Char.ofNat b
  else if b < 0xC2 then replChar
  else if b < 0xE0 then
    match rest with
    | b2 :: _ =>
      if 0x80 ≤ b2 ∧ b2 < 0xC0 then Char.ofNat ((b - 0xC0) * 64 + (b2 - 0x80))
      else replChar
    | [] => replChar
  else if b < 0xF0 then
    match rest with
    | b2 :: b3 :: _ =>
      if ((b = 0xE0 ∧ 0xA0 ≤ b2 ∧ b2 < 0xC0) ∨
          (b = 0xED ∧ 0x80 ≤ b2 ∧ b2 < 0xA0) ∨
          (b ≠ 0xE0 ∧ b ≠ 0xED ∧ 0x80 ≤ b2 ∧ b2 < 0xC0)) ∧
         (0x80 ≤ b3 ∧ b3 < 0xC0) then
        Char.ofNat ((b - 0xE0) * 4096 + (b2 - 0x80) * 64 + (b3 - 0x80))
      else replChar
    | _ => replChar
  else if b < 0xF5 then
    match rest with
    | b2 :: b3 :: b4 :: _ =>
      if ((b = 0xF0 ∧ 0x90 ≤ b2 ∧ b2 < 0xC0) ∨
          (b = 0xF4 ∧ 0x80 ≤ b2 ∧ b2 < 0x90) ∨
          (b ≠ 0xF0 ∧ b ≠ 0xF4 ∧ 0x80 ≤ b2 ∧ b2 < 0xC0)) ∧
         (0x80 ≤ b3 ∧ b3 < 0xC0) ∧ (0x80 ≤ b4 ∧ b4 < 0xC0) then
        Char.ofNat ((b - 0xF0) * 262144 + (b2 - 0x80) * 4096 + (b3 - 0x80) * 64 + (b4 - 0x80))
      else replChar
    | _ => replChar
  else replChar

/-- UTF-8 decoding with U+FFFD replacement, the semantics of Node's
`Buffer.prototype.toString('utf-8')` on arbitrary bytes: well-formed sequences
decode to their scalar value, anything else contributes a replacement
character. The fuel argument only bounds recursion; one byte is consumed per
step at minimum, so `fuel = length` suffices. -/
def utf8DecodeFuel : Nat → List Nat → List Char
  | 0, _ => []
  | _, [] => []
  | fuel + 1, b :: rest =>
    seqChar b rest :: utf8DecodeFuel fuel (rest.drop (seqTail b rest))

/-- `Buffer.from(bytes).toString('utf-8')`. -/
def utf8Decode (bytes : List Nat) : String :=
  String.mk (utf8DecodeFuel bytes.length bytes)

/-- JSON values as produced by `JSON.parse`. Numbers are modelled as integers
(the only numbers in play are checklist sequence numbers); fractional and
exponent syntax is not modelled. -/
inductive Json where
  | null
  | bool (b : Bool)
  | num (n : Int)
  | str (s : String)
  | arr (xs : List Json)
  | obj (fields : List (String × Json))

/-- JS truthiness of a parsed JSON value. -/
def Json.truthy : Json → Bool
  | Json.null => false
  | Json.bool b => b
  | Json.num n => n ≠ 0
  | Json.str s => s ≠ ""
  | _ => true

/-- JS member access `j.k` on a parsed value: objects yield their last binding
for the key (`JSON.parse` keeps the last duplicate), everything else yields
`undefined` (here `none`). -/
def Json.getField (j : Json) (k : String) : Option Json :=
  match j with
  | Json.obj fields => (fields.reverse.find? (fun p => p.1 = k)).map (fun p => p.2)
  | _ => none

def Json.arity : Json → Nat
  | Json.arr xs => xs.length
  | _ => 0

namespace JsonParse

def isJsonWs (c : Char) : Bool :=
  c.toNat = 32 ∨ c.toNat = 9 ∨ c.toNat = 10 ∨ c.toNat = 13

def skipWs : List Char → List Char
  | [] => []
  | c :: cs => if isJsonWs c then skipWs cs else c :: cs

def hexVal (c : Char) : Option Nat :=
  if 48 ≤ c.toNat ∧ c.toNat ≤ 57 then some (c.toNat - 48)
  else if 97 ≤ c.toNat ∧ c.toNat ≤ 102 then some (c.toNat - 87)
  else if 65 ≤ c.toNat ∧ c.toNat ≤ 70 then some (c.toNat - 55)
  else none

/-- Body of a JSON string after the opening quote: returns the decoded
characters and the remainder after the closing quote. Escapes are decoded;
`\u` escapes become the coded unit (surrogate pairing is not modelled). -/
def parseStrChars : Nat → List Char → Option (List Char × List Char)
  | _, [] => none
  | 0, _ => none
  | fuel + 1, c :: cs =>
    if c = Char.ofNat 34 then some ([], cs)
    else if c = Char.ofNat 92 then
      match cs with
      | [] => none
      | e :: cs2 =>
        let cont := fun (ch : Char) (rest : List Char) =>
          (parseStrChars fuel rest).map (fun pr => (ch :: pr.1, pr.2))
        if e = Char.ofNat 34 then cont (Char.ofNat 34) cs2
        else if e = Char.ofNat 92 then cont (Char.ofNat 92) cs2
        else if e = Char.ofNat 47 then cont (Char.ofNat 47) cs2
        else if e = 'b' then cont (Char.ofNat 8) cs2
        else if e = 'f' then cont (Char.ofNat 12) cs2
        else if e = 'n' then cont (Char.ofNat 10) cs2
        else if e = 'r' then cont (Char.ofNat 13) cs2
        else if e = 't' then cont (Char.ofNat 9) cs2
        else if e = 'u' then
          match cs2 with
          | h1 :: h2 :: h3 :: h4 :: cs3 =>
            match hexVal h1, hexVal h2, hexVal h3, hexVal h4 with
            | some a, some b, some c3, some d =>
              cont (Char.ofNat (a * 4096 + b * 256 + c3 * 16 + d)) cs3
            | _, _, _, _ => none
          | _ => none
        else none
    else if c.toNat < 32 then none
    else (parseStrChars fuel cs).map (fun pr => (c :: pr.1, pr.2))

def digitsVal : List Char → Nat → Nat
  | [], acc => acc
  | c :: cs, acc => digitsVal cs (acc * 10 + (c.toNat - 48))

/-- JSON number grammar restricted to optionally signed integers (no leading
zeros, no fraction/exponent). -/
def parseNumber (cs : List Char) : Option (Json × List Char) :=
  let core := fun (l : List Char) (neg : Bool) =>
    let digits := l.takeWhile (fun c => 48 ≤ c.toNat ∧ c.toNat ≤ 57)
    let rest := l.dropWhile (fun c => 48 ≤ c.toNat ∧ c.toNat ≤ 57)
    if digits.length = 0 then none
    else if digits.length > 1 ∧ digits.headD ' ' = '0' then none
    else
      let v : Int := Int.ofNat (digitsVal digits 0)
      some (Json.num (if neg then -v else v), rest)
  match cs with
  | [] => none
  | c :: rest => if c = '-' then core rest true else core cs false

mutual

def parseValue : Nat → List Char → Option (Json × List Char)
  | 0, _ => none
  | fuel + 1, cs =>
    match skipWs cs with
    | [] => none
    | c :: rest =>
      if c = Char.ofNat 123 then parseObjItems fuel (skipWs rest) true
      else if c = '[' then parseArrItems fuel (skipWs rest) true
      else if c = Char.ofNat 34 then
        (parseStrChars (rest.length + 1) rest).map (fun pr => (Json.str (String.mk pr.1), pr.2))
      else if c = 't' then
        match rest with
        | 'r' :: 'u' :: 'e' :: rest2 => some (Json.bool true, rest2)
        | _ => none
      else if c = 'f' then
        match rest with
        | 'a' :: 'l' :: 's' :: 'e' :: rest2 => some (Json.bool false, rest2)
        | _ => none
      else if c = 'n' then
        match rest with
        | 'u' :: 'l' :: 'l' :: rest2 => some (Json.null, rest2)
        | _ => none
      else parseNumber (c :: rest)

/-- Items of an array after `[`; `first` is true when no item was read yet. -/
def parseArrItems : Nat → List Char → Bool → Option (Json × List Char)
  | 0, _, _ => none
  | fuel + 1, cs, first =>
    match skipWs cs with
    | [] => none
    | c :: rest =>
      if c = ']' ∧ first then some (Json.arr [], rest)
      else
        match parseValue fuel (c :: rest) with
        | none => none
        | some (v, after) =>
          match skipWs after with
          | ',' :: more =>
            (parseArrItems fuel more false).bind (fun pr =>
              match pr.1 with
              | Json.arr xs => some (Json.arr (v :: xs), pr.2)
              | _ => none)
          | ']' :: more => some (Json.arr [v], more)
          | _ => none

/-- Members of an object after the opening brace. -/
def parseObjItems : Nat → List Char → Bool → Option (Json × List Char)
  | 0, _, _ => none
  | fuel + 1, cs, first =>
    match skipWs cs with
    | [] => none
    | c :: rest =>
      if c = Char.ofNat 125 ∧ first then some (Json.obj [], rest)
      else if c = Char.ofNat 34 then
        match parseStrChars (rest.length + 1) rest with
        | none => none
        | some (key, afterKey) =>
          match skipWs afterKey with
          | ':' :: afterColon =>
            match parseValue fuel afterColon with
            | none => none
            | some (v, afterVal) =>
              match skipWs afterVal with
              | ',' :: more =>
                (parseObjItems fuel more false).bind (fun pr =>
                  match pr.1 with
                  | Json.obj fs => some (Json.obj ((String.mk key, v) :: fs), pr.2)
                  | _ => none)
              | rest2 =>
                match rest2 with
                | c2 :: more => if c2 = Char.ofNat 125 then some (Json.obj [(String.mk key, v)], more) else none
                | [] => none
          | _ => none
      else none

end

end JsonParse

/-- `JSON.parse`: `none` models a thrown `SyntaxError`. -/
def jsonParse (s : String) : Option Json :=
  match JsonParse.parseValue (s.data.length + 2) s.data with
  | some (j, rest) => if JsonParse.skipWs rest = [] then some j else none
  | none => none

/-- Regex extraction `aiResponse.match(/\x7b[\s\S]*\x7d/)`: the substring from
the first opening brace to the last closing brace, when that span is non-empty. -/
def jsonMatchJs (s : String) : Option String :=
  let cs := s.data
  let openIdx := cs.findIdx? (fun c => c = Char.ofNat 123)
  let closeIdxs := (List.range cs.length).filter (fun i => cs.getD i ' ' = Char.ofNat 125)
  match openIdx, closeIdxs.getLast? with
  | some i, some j => if i < j then some (String.mk ((cs.drop i).take (j - i + 1))) else none
  | _, _ => none

/-- The hard-coded fallback checklist built when parsing the AI response
throws: 8 items numbered 1..8, compliance `Not Found`. -/
def fallback8 : List Json :=
  (List.range 8).map (fun i =>
    Json.obj [("srNo", Json.num (Int.ofNat (i + 1))),
              ("checklist", Json.str ("Checklist item " ++ toString (i + 1))),
              ("compliance", Json.str "Not Found"),
              ("remark", Json.str "AI analysis failed to parse response")])

/-- The checklist-extraction pipeline of the fill-pmp-checklist handler:
`pmpChecklist` starts as `[]`; a brace-delimited substring is extracted and
parsed, `jsonResponse.checklist || []` keeps a truthy `checklist` member; a
parse exception is caught and replaced by the fixed 8-item fallback. (A parse
result of `null` cannot arise from a brace-delimited substring, so the member
access never throws on the success path.) -/
def parsePmpChecklist (aiResponse : String) : Json :=
  match jsonMatchJs aiResponse with
  | none => Json.arr []
  | some m =>
    match jsonParse m with
    | none => Json.arr fallback8
    | some j =>
      match j.getField "checklist" with
      | some v => if v.truthy then v else Json.arr []
      | none => Json.arr []

/-- A record of the in-process `instructionsCache` map. -/
structure InstructionData where
  id : String
  fileName : String
  content : String
  publicUrl : Option String
  directUrl : Option String
  fileId : Option String
  createdAt : String
  hasGoogleDriveBackup : Bool
  specialInstruction : Option String := none
  isPMPA : Option Bool := none
  feedback : Option String := none
  inputData : Option (List (String × String)) := none
  customPrompt : Option String := none
  pmpChecklist : Option Json := none

/-- The `InstructionMetadata` shape used by the generate-feedback and
fill-pmp-checklist routes (and persisted in `.meta.json` files). -/
structure InstructionMetadata where
  id : String
  fileName : String
  createdAt : String
  size : Nat
  specialInstruction : Option String := none
  isPMPA : Option Bool := none
  feedback : Option String := none
  inputData : Option (List (String × String)) := none
  customPrompt : Option String := none
  content : Option String := none
  pmpChecklist : Option Json := none

/-- JS `Map.prototype.set`: replace an existing binding in place, else append. -/
def cacheSet (cache : List (String × InstructionData)) (k : String) (v : InstructionData) :
    List (String × InstructionData) :=
  if cache.any (fun p => p.1 = k) then
    cache.map (fun p => if p.1 = k then (k, v) else p)
  else cache ++ [(k, v)]

/-- JS `Map.prototype.get`. -/
def cacheGet (cache : List (String × InstructionData)) (k : String) : Option InstructionData :=
  (cache.find? (fun p => p.1 = k)).map (fun p => p.2)

def listGet {α : Type} (l : List (String × α)) (k : String) : Option α :=
  (l.find? (fun p => p.1 = k)).map (fun p => p.2)

def listSet {α : Type} (l : List (String × α)) (k : String) (v : α) : List (String × α) :=
  l.map (fun p => if p.1 = k then (k, v) else p)

/-- The metadata view the two sub-action routes build from a cache hit (note:
`pmpChecklist` is not copied into it). -/
def metaOfCached (cached : InstructionData) : InstructionMetadata :=
  { id := cached.id
    fileName := cached.fileName
    createdAt := cached.createdAt
    size := cached.content.data.length
    specialInstruction := cached.specialInstruction
    isPMPA := cached.isPMPA
    feedback := cached.feedback
    inputData := cached.inputData
    customPrompt := cached.customPrompt
    content := some cached.content }

/-- Outcome of a raw `model.generateContent(...).response.text()` call. -/
inductive TextGenCall where
  | ret (text : String)
  | exn (msg : String)
deriving DecidableEq

/-- The text-extension table of the instruction-creation route. -/
def instructionTextExtensions : List String :=
  [".txt", ".md", ".csv", ".json", ".xml", ".js", ".ts", ".html", ".css"]

/-- `textExtensions.some(ext => file.name.toLowerCase().endsWith(ext))`. -/
def isTextUploadName (name : String) : Bool :=
  instructionTextExtensions.any (fun ext => strEndsWith (asciiLower name) ext)

/-- The `content` stored for an uploaded instruction file: text-extension
names round-trip their bytes through UTF-8, anything else stores the fixed
placeholder naming the file. -/
def instructionContentOf (f : IncomingFile) : String :=
  if isTextUploadName f.name then utf8Decode f.bytes
  else "[Binary file: " ++ f.name ++ "] - Content will be processed by AI when analyzing files."

/-- The `driveFile` value of the instruction-creation handler: the returned
upload result, or the catch-branch fallback when the upload threw. -/
def driveFileOf (drive : DriveCall) : DriveUploadResult :=
  match drive with
  | DriveCall.ret r => r
  | DriveCall.exn _ =>
    { fileId := none, publicUrl := none, directUrl := none,
      success := false, error := some "Upload failed" }

/-- Success body of the instruction-creation response. -/
structure InstrPostOk where
  instructionId : String
  fileName : String
  content : String
  driveFile : DriveUploadResult
  publicUrl : Option String
  directUrl : Option String
  message : String

inductive InstrPostResponse where
  | ok (r : InstrPostOk)
  | clientError (status : Nat) (error : String)
  | serverError (status : Nat) (error : String)

structure InstrPostResult where
  response : InstrPostResponse
  cache : List (String × InstructionData)
  diskWrites : List (String × String)
  trace : List TempEvent

/-- The instruction-creation handler `POST` (serverless variant with the
in-memory cache; the plain variant computes the same stored `content`).
`dirWritable` models `getSafeInstructionsDir` succeeding, `localWriteOk` the
best-effort local write not throwing, `panic` an unexpected exception after
the temp write. -/
def instructionsPOST (file : Option IncomingFile) (nowMs : Nat) (nowIso : String)
    (drive : DriveCall) (cache : List (String × InstructionData))
    (dirWritable : Bool) (localWriteOk : Bool) (panic : Option String) : InstrPostResult :=
  match file with
  | none =>
    { response := InstrPostResponse.clientError 400 "No instruction file provided"
      cache := cache, diskWrites := [], trace := finallyCleanup false [] }
  | some f =>
    let content := instructionContentOf f
    let instructionId := "instruction_" ++ toString nowMs
    let trace : List TempEvent := [TempEvent.write]
    match panic with
    | some _ =>
      { response := InstrPostResponse.serverError 500 "Failed to upload instruction file"
        cache := cache, diskWrites := [], trace := finallyCleanup true trace }
    | none =>
      let driveFile := driveFileOf drive
      let instructionData : InstructionData :=
        { id := instructionId
          fileName := f.name
          content := content
          publicUrl := jsOrNull driveFile.publicUrl
          directUrl := jsOrNull driveFile.directUrl
          fileId := jsOrNull driveFile.fileId
          createdAt := nowIso
          hasGoogleDriveBackup := driveFile.success }
      let cache2 := cacheSet cache instructionId instructionData
      let diskWrites := if dirWritable && localWriteOk then [(instructionId, content)] else []
      { response := InstrPostResponse.ok
          { instructionId := instructionId
            fileName := f.name
            content := content
            driveFile := driveFile
            publicUrl := jsOrNull driveFile.publicUrl
            directUrl := jsOrNull driveFile.directUrl
            message :=
              if driveFile.success then "File uploaded successfully with Google Drive backup"
              else "File stored in session (configure Google Drive for persistence)" }
        cache := cache2
        diskWrites := diskWrites
        trace := finallyCleanup true trace }

inductive GenFeedbackResponse where
  | ok (feedback : String) (instruction : InstructionMetadata)
  | err (status : Nat) (error : String)

structure GenFeedbackResult where
  response : GenFeedbackResponse
  cache : List (String × InstructionData)
  diskMeta : List (String × InstructionMetadata)

/-- The generate-feedback sub-action `POST`: rejects a missing id with 400 and
a missing `GEMINI_API_KEY` with 500, resolves the instruction via the cache
then the filesystem, calls the model, and stores the generated feedback. -/
def generateFeedbackPOST (env : Env) (instructionId : Option String)
    (cache : List (String × InstructionData))
    (diskMeta : List (String × InstructionMetadata))
    (diskContent : List (String × String))
    (gen : TextGenCall) : GenFeedbackResult :=
  if ¬ truthyStr instructionId then
    { response := GenFeedbackResponse.err 400 "Instruction ID is required"
      cache := cache, diskMeta := diskMeta }
  else if ¬ env.hasGemini then
    { response := GenFeedbackResponse.err 500 "Gemini API key not configured. Please set GEMINI_API_KEY environment variable."
      cache := cache, diskMeta := diskMeta }
  else
    let id := instructionId.getD ""
    -- resolve the instruction: cache first, then the `.meta.json` + `.txt`
    -- pair on disk; the disk content feeds only the prompt, not stored state
    let resolved : Option (InstructionMetadata × Option InstructionData) :=
      match cacheGet cache id with
      | some cached => some (metaOfCached cached, some cached)
      | none =>
        match listGet diskMeta id with
        | none => none
        | some md =>
          match listGet diskContent id with
          | none => none
          | some _ => some (md, none)
    match resolved with
    | none =>
      if (listGet diskMeta id).isNone then
        { response := GenFeedbackResponse.err 404 "Instruction not found"
          cache := cache, diskMeta := diskMeta }
      else
        { response := GenFeedbackResponse.err 404 "Instruction content not found"
          cache := cache, diskMeta := diskMeta }
    | some (metadata, fromCache) =>
      match gen with
      | TextGenCall.exn msg =>
        if containsSub msg "API_KEY" then
          { response := GenFeedbackResponse.err 401 "Gemini API authentication failed. Please check your API key."
            cache := cache, diskMeta := diskMeta }
        else
          { response := GenFeedbackResponse.err 500 "Internal server error while generating feedback"
            cache := cache, diskMeta := diskMeta }
      | TextGenCall.ret text =>
        if text = "" then
          { response := GenFeedbackResponse.err 500 "Failed to generate feedback"
            cache := cache, diskMeta := diskMeta }
        else
          let updatedMetadata := { metadata with feedback := some text }
          let cache2 :=
            match fromCache with
            | some cached => cacheSet cache id { cached with feedback := some text }
            | none => cache
          let diskMeta2 :=
            match fromCache with
            | some _ => diskMeta
            | none => listSet diskMeta id updatedMetadata
          { response := GenFeedbackResponse.ok text updatedMetadata
            cache := cache2, diskMeta := diskMeta2 }

inductive FillChecklistResponse where
  | ok (checklist : Json) (instruction : InstructionMetadata)
  | err (status : Nat) (error : String)

structure FillChecklistResult where
  response : FillChecklistResponse
  cache : List (String × InstructionData)
  diskMeta : List (String × InstructionMetadata)

/-- The fill-pmp-checklist sub-action `POST`: same id/key/lookup structure as
generate-feedback; the AI text goes through `parsePmpChecklist` and the result
replaces the record's `pmpChecklist`. -/
def fillChecklistPOST (env : Env) (instructionId : Option String)
    (cache : List (String × InstructionData))
    (diskMeta : List (String × InstructionMetadata))
    (diskContent : List (String × String))
    (gen : TextGenCall) : FillChecklistResult :=
  if ¬ truthyStr instructionId then
    { response := FillChecklistResponse.err 400 "Instruction ID is required"
      cache := cache, diskMeta := diskMeta }
  else if ¬ env.hasGemini then
    { response := FillChecklistResponse.err 500 "Gemini API key not configured. Please set GEMINI_API_KEY environment variable."
      cache := cache, diskMeta := diskMeta }
  else
    let id := instructionId.getD ""
    let resolved : Option (InstructionMetadata × Option InstructionData) :=
      match cacheGet cache id with
      | some cached => some (metaOfCached cached, some cached)
      | none =>
        match listGet diskMeta id with
        | none => none
        | some md =>
          match listGet diskContent id with
          | none => none
          | some _ => some (md, none)
    match resolved with
    | none =>
      if (listGet diskMeta id).isNone then
        { response := FillChecklistResponse.err 404 "Instruction not found"
          cache := cache, diskMeta := diskMeta }
      else
        { response := FillChecklistResponse.err 404 "Instruction content not found"
          cache := cache, diskMeta := diskMeta }
    | some (metadata, fromCache) =>
      match gen with
      | TextGenCall.exn msg =>
        if containsSub msg "API_KEY" then
          { response := FillChecklistResponse.err 401 "Gemini API authentication failed. Please check your API key."
            cache := cache, diskMeta := diskMeta }
        else
          { response := FillChecklistResponse.err 500 "Internal server error while generating checklist"
            cache := cache, diskMeta := diskMeta }
      | TextGenCall.ret text =>
        if text = "" then
          { response := FillChecklistResponse.err 500 "Failed to generate checklist analysis"
            cache := cache, diskMeta := diskMeta }
        else
          let pmpChecklist := parsePmpChecklist text
          let updatedMetadata := { metadata with pmpChecklist := some pmpChecklist }
          let cache2 :=
            match fromCache with
            | some cached => cacheSet cache id { cached with pmpChecklist := some pmpChecklist }
            | none => cache
          let diskMeta2 :=
            match fromCache with
            | some _ => diskMeta
            | none => listSet diskMeta id updatedMetadata
          { response := FillChecklistResponse.ok pmpChecklist updatedMetadata
            cache := cache2, diskMeta := diskMeta2 }

inductive DeleteResponse where
  | ok
  | notFound
  | badRequest
deriving DecidableEq

/-- The dual-write instruction store seen by the delete endpoint. -/
structure InstructionStore where
  cache : List (String × InstructionData)
  diskContent : List (String × String)
  diskMeta : List (String × InstructionMetadata)

def storeHasId (st : InstructionStore) (id : String) : Bool :=
  st.cache.any (fun p => p.1 = id) || st.diskContent.any (fun p => p.1 = id)

/-- Modelled from the spec: the DELETE handler of the instructions endpoint is
not part of the sources (only its client-side caller,
`deleteInstruction` in the instructions page, which issues
`DELETE /api/instructions?id=...` and surfaces `data.error`). Per the spec,
deletion is keyed by id over the in-memory map and the paired on-disk files; a
missing id is a hard input error, and deleting an id that does not exist
returns a not-found indication and leaves the existing store unmodified. -/
def deleteInstructionModel (st : InstructionStore) (id : Option String) :
    DeleteResponse × InstructionStore :=
  match id with
  | none => (DeleteResponse.badRequest, st)
  | some i =>
    if storeHasId st i then
      (DeleteResponse.ok,
        { cache := st.cache.filter (fun p => p.1 ≠ i)
          diskContent := st.diskContent.filter (fun p => p.1 ≠ i)
          diskMeta := st.diskMeta.filter (fun p => p.1 ≠ i) })
    else (DeleteResponse.notFound, st)

/-! Helper lemmas. -/


theorem char_ofNat_toNat (c : Char) : Char.ofNat c.toNat = c := by
  have h : c.toNat.isValidChar := c.valid
  simp [Char.ofNat, h]
  apply Char.eq_of_val_eq
  simp [Char.ofNatAux, Char.toNat]
  apply UInt32.eq_of_toBitVec_eq
  rfl

/-- One decoding step on the encoding of a valid scalar consumes exactly that
encoding and emits the character back. -/
theorem seq_of_encode (c : Char) (tail : List Nat) :
    ∃ b brest, utf8EncodeChar c = b :: brest ∧
      seqChar b (brest ++ tail) = c ∧
      seqTail b (brest ++ tail) = brest.length := by
  have hval : c.toNat < 0xD800 ∨ (0xE000 ≤ c.toNat ∧ c.toNat < 0x110000) := c.valid
  have hofn := char_ofNat_toNat c
  by_cases h1 : c.toNat < 0x80
  · refine ⟨c.toNat, [], by simp [utf8EncodeChar, h1], ?_, ?_⟩
    · simp [seqChar, h1, hofn]
    · simp [seqTail, h1]
  · by_cases h2 : c.toNat < 0x800
    · refine ⟨0xC0 + c.toNat / 64, [0x80 + c.toNat % 64], by simp [utf8EncodeChar, h1, h2], ?_, ?_⟩
      · simp only [seqChar, List.cons_append]
        rw [if_neg (by omega), if_neg (by omega), if_pos (by omega)]
        rw [if_pos (by omega)]
        have : (0xC0 + c.toNat / 64 - 0xC0) * 64 + (0x80 + c.toNat % 64 - 0x80) = c.toNat := by
          omega
        rw [this, hofn]
      · simp only [seqTail, List.cons_append]
        rw [if_neg (by omega), if_neg (by omega), if_pos (by omega)]
        rw [if_pos (by omega)]
        rfl
    · by_cases h3 : c.toNat < 0x10000
      · refine ⟨0xE0 + c.toNat / 4096, [0x80 + c.toNat / 64 % 64, 0x80 + c.toNat % 64],
          by simp [utf8EncodeChar, h1, h2, h3], ?_, ?_⟩
        · simp only [seqChar, List.cons_append]
          rw [if_neg (by omega), if_neg (by omega), if_neg (by omega), if_pos (by omega)]
          rw [if_pos (by omega)]
          have : (0xE0 + c.toNat / 4096 - 0xE0) * 4096 + (0x80 + c.toNat / 64 % 64 - 0x80) * 64 +
              (0x80 + c.toNat % 64 - 0x80) = c.toNat := by omega
          rw [this, hofn]
        · simp only [seqTail, List.cons_append]
          rw [if_neg (by omega), if_neg (by omega), if_neg (by omega), if_pos (by omega)]
          rw [if_pos (by omega)]
          rfl
      · refine ⟨0xF0 + c.toNat / 262144,
          [0x80 + c.toNat / 4096 % 64, 0x80 + c.toNat / 64 % 64, 0x80 + c.toNat % 64],
          by simp [utf8EncodeChar, h1, h2, h3], ?_, ?_⟩
        · simp only [seqChar, List.cons_append]
          rw [if_neg (by omega), if_neg (by omega), if_neg (by omega), if_neg (by omega),
            if_pos (by omega)]
          rw [if_pos (by omega)]
          have : (0xF0 + c.toNat / 262144 - 0xF0) * 262144 +
              (0x80 + c.toNat / 4096 % 64 - 0x80) * 4096 +
              (0x80 + c.toNat / 64 % 64 - 0x80) * 64 + (0x80 + c.toNat % 64 - 0x80) = c.toNat := by
            omega
          rw [this, hofn]
        · simp only [seqTail, List.cons_append]
          rw [if_neg (by omega), if_neg (by omega), if_neg (by omega), if_neg (by omega),
            if_pos (by omega)]
          rw [if_pos (by omega)]
          rfl

theorem utf8DecodeFuel_encode : ∀ (cs : List Char) (fuel : Nat),
    ((cs.map utf8EncodeChar).flatten).length ≤ fuel →
    utf8DecodeFuel fuel ((cs.map utf8EncodeChar).flatten) = cs := by
  intro cs
  induction cs with
  | nil => intro fuel _; cases fuel <;> rfl
  | cons c cs ih =>
    intro fuel h
    obtain ⟨b, brest, henc, hchar, htail⟩ := seq_of_encode c ((cs.map utf8EncodeChar).flatten)
    have hflat : ((c :: cs).map utf8EncodeChar).flatten =
        b :: (brest ++ (cs.map utf8EncodeChar).flatten) := by
      simp [henc]
    rw [hflat] at h ⊢
    match fuel, h with
    | fuel + 1, h =>
      simp only [utf8DecodeFuel, hchar, htail, List.drop_left]
      have hlen : ((cs.map utf8EncodeChar).flatten).length ≤ fuel := by
        simp only [List.length_cons, List.length_append] at h
        omega
      rw [ih fuel hlen]

theorem utf8Decode_encode (s : String) : utf8Decode (utf8Encode s) = s := by
  show utf8Decode ((s.data.map utf8EncodeChar).flatten) = s
  unfold utf8Decode
  rw [utf8DecodeFuel_encode s.data _ (le_refl _)]


theorem analyzeFile_feedback_ne_empty (fsv : FsView) (fileName url now : String) :
    (LocalAnalyzer.analyzeFile fsv fileName url now).feedback ≠ "" := by
  cases h : fsv.statResult with
  | none =>
    simp [LocalAnalyzer.analyzeFile, h]
  | some stats =>
    simp only [LocalAnalyzer.analyzeFile, h]
    intro hc
    have hl := congrArg String.length hc
    have h0 : ("" : String).length = 0 := by decide
    have h1 : ("\n" : String).length = 1 := by decide
    simp only [String.length_append, h0, h1] at hl
    omega

theorem winningAnalysis_feedback (la : AnalysisResult) (ai : Option GeminiAnalysis) :
    (winningAnalysis la ai).feedback = la.feedback ∨
      ∃ g, ai = some g ∧ (winningAnalysis la ai).feedback = g.feedback := by
  cases ai with
  | none => exact Or.inl rfl
  | some g =>
    by_cases hs : g.success
    · exact Or.inr ⟨g, rfl, by simp [winningAnalysis, hs, GeminiAnalysis.toAnalysisResult]⟩
    · exact Or.inl (by simp [winningAnalysis, hs])

theorem geminiOutcome_fst (env : Env) (u : Option DriveUploadResult) (gem : GeminiCall) :
    (geminiOutcome env u gem).1 = none ∨
      ∃ g, gem = GeminiCall.ret g ∧ (geminiOutcome env u gem).1 = some g := by
  unfold geminiOutcome
  split
  · cases gem with
    | ret g =>
      by_cases hs : g.success
      · exact Or.inr ⟨g, rfl, by simp [hs]⟩
      · exact Or.inr ⟨g, rfl, by simp [hs]⟩
    | exn m => exact Or.inl rfl
  · split
    · exact Or.inl rfl
    · split
      · exact Or.inl rfl
      · exact Or.inl rfl

/-- Claim C1: for every file-upload request that reaches the handler with a
file present (and no unexpected internal exception), the response is a
success whose analysis payload carries a feedback string that is either the
local heuristic's feedback or the Gemini feedback, and the local heuristic's
feedback is a non-empty string even on its own error path. -/
theorem c1_upload_feedback_always_present (env : Env) (f : IncomingFile)
    (instructionFileId : Option String) (instrMeta : Option InstrMeta) (fsv : FsView)
    (nowIso : String) (drive : DriveCall) (gemini : GeminiCall) :
    ∃ r, (uploadPOST env (some f) instructionFileId instrMeta fsv nowIso drive gemini none).1 =
        UploadResponse.ok r ∧
      (r.analysis.feedback =
          (LocalAnalyzer.analyzeFile fsv f.name
            ((resolveInstructionUrl instructionFileId instrMeta).getD "") nowIso).feedback ∨
        ∃ g, gemini = GeminiCall.ret g ∧ r.analysis.feedback = g.feedback) ∧
      (LocalAnalyzer.analyzeFile fsv f.name
          ((resolveInstructionUrl instructionFileId instrMeta).getD "") nowIso).feedback ≠ "" := by
  refine ⟨_, rfl, ?_, analyzeFile_feedback_ne_empty _ _ _ _⟩
  simp only [uploadPOST]
  rcases winningAnalysis_feedback
      (LocalAnalyzer.analyzeFile fsv f.name
        ((resolveInstructionUrl instructionFileId instrMeta).getD "") nowIso)
      (geminiOutcome env (driveOutcome env drive).1 gemini).1 with h | ⟨g, hg, hfb⟩
  · exact Or.inl h
  · rcases geminiOutcome_fst env (driveOutcome env drive).1 gemini with h0 | ⟨g2, hg2, h2⟩
    · rw [h0] at hg; cases hg
    · rw [h2] at hg
      obtain rfl := Option.some.inj hg
      exact Or.inr ⟨g2, hg2, hfb⟩

/-- Claim C2: when the Drive upload succeeds with a truthy direct URL and the
Gemini call succeeds, the response's analysis is exactly the Gemini result
(the local heuristic result is discarded) and the inference status is
`success`. -/
theorem c2_ai_supersedes_local (env : Env) (f : IncomingFile)
    (instructionFileId : Option String) (instrMeta : Option InstrMeta) (fsv : FsView)
    (nowIso : String) (drive : DriveCall) (gemini : GeminiCall)
    (r : DriveUploadResult) (g : GeminiAnalysis)
    (hgd : env.hasGoogleDrive = true) (hgm : env.hasGemini = true)
    (hdr : drive = DriveCall.ret r) (hrs : r.success = true)
    (hurl : truthyStr r.directUrl = true)
    (hge : gemini = GeminiCall.ret g) (hgs : g.success = true) :
    ∃ res, (uploadPOST env (some f) instructionFileId instrMeta fsv nowIso drive gemini none).1 =
        UploadResponse.ok res ∧
      res.analysis = g.toAnalysisResult ∧
      res.serviceStatus.geminiAnalysis = "success" := by
  have hd : driveOutcome env drive = (some r, none) := by
    simp [driveOutcome, hgd, hdr, hrs]
  have hg : geminiOutcome env (some r) gemini = (some g, none) := by
    simp [geminiOutcome, hgm, hurl, hge, hgs]
  refine ⟨_, rfl, ?_, ?_⟩
  · simp only [uploadPOST, hd, hg, winningAnalysis, hgs, if_pos]
  · simp only [uploadPOST, hd, hg]
    rfl

/-- Claim C3: when the Drive upload succeeds but `GEMINI_API_KEY` is not
configured, the response's analysis is the local heuristic result and the
inference status string is `Gemini API not configured`. -/
theorem c3_local_when_gemini_unconfigured (env : Env) (f : IncomingFile)
    (instructionFileId : Option String) (instrMeta : Option InstrMeta) (fsv : FsView)
    (nowIso : String) (drive : DriveCall) (gemini : GeminiCall)
    (r : DriveUploadResult)
    (hgd : env.hasGoogleDrive = true)
    (hkey : env.geminiApiKey = none)
    (hdr : drive = DriveCall.ret r) (hrs : r.success = true) :
    ∃ res, (uploadPOST env (some f) instructionFileId instrMeta fsv nowIso drive gemini none).1 =
        UploadResponse.ok res ∧
      res.analysis =
        LocalAnalyzer.analyzeFile fsv f.name
          ((resolveInstructionUrl instructionFileId instrMeta).getD "") nowIso ∧
      res.serviceStatus.geminiAnalysis = "Gemini API not configured" := by
  have hgm : env.hasGemini = false := by
    simp [Env.hasGemini, hkey, truthyStr]
  have hd : driveOutcome env drive = (some r, none) := by
    simp [driveOutcome, hgd, hdr, hrs]
  have hg : geminiOutcome env (some r) gemini = (none, some "Gemini API not configured") := by
    simp [geminiOutcome, hgm]
  refine ⟨_, rfl, ?_, ?_⟩
  · simp only [uploadPOST, hd, hg, winningAnalysis]
  · simp only [uploadPOST, hd, hg]
    rfl

/-- Claim C4: when none of the three storage credentials is configured, the
response's storage URL fields are all null and the storage status string is
`Google Drive not configured`. -/
theorem c4_storage_unconfigured_null_urls (env : Env) (f : IncomingFile)
    (instructionFileId : Option String) (instrMeta : Option InstrMeta) (fsv : FsView)
    (nowIso : String) (drive : DriveCall) (gemini : GeminiCall)
    (h1 : env.googleProjectId = none) (h2 : env.googlePrivateKey = none)
    (h3 : env.googleServiceAccountEmail = none) :
    ∃ res, (uploadPOST env (some f) instructionFileId instrMeta fsv nowIso drive gemini none).1 =
        UploadResponse.ok res ∧
      res.file.fileId = none ∧ res.file.publicUrl = none ∧ res.file.directUrl = none ∧
      res.serviceStatus.googleDrive = "Google Drive not configured" := by
  have hgd : env.hasGoogleDrive = false := by
    simp [Env.hasGoogleDrive, h1, h2, h3, truthyStr]
  have hd : driveOutcome env drive = (none, some "Google Drive not configured") := by
    simp [driveOutcome, hgd]
  refine ⟨_, rfl, ?_, ?_, ?_, ?_⟩ <;>
    simp only [uploadPOST, hd] <;> rfl

/-- Claim C6: whenever the transient file is written (a file is present), it
is deleted again before either upload handler returns, on the success path,
on every caught-failure path, and when the body throws (`panic`). -/
theorem c6_temp_file_always_cleaned (env : Env) (f f2 : IncomingFile)
    (instructionFileId : Option String) (instrMeta : Option InstrMeta) (fsv : FsView)
    (nowIso : String) (drive drive2 : DriveCall) (gemini : GeminiCall)
    (panic panic2 : Option String) (nowMs : Nat)
    (cache : List (String × InstructionData)) (dw lw : Bool) :
    tempExists
        (uploadPOST env (some f) instructionFileId instrMeta fsv nowIso drive gemini panic).2 =
      false ∧
    tempExists (instructionsPOST (some f2) nowMs nowIso drive2 cache dw lw panic2).trace = false := by
  constructor
  · cases panic <;> rfl
  · cases panic2 <;> rfl

/-- Claim C5 counterexample: with `GEMINI_API_KEY` absent and a valid
instruction id, the generate-feedback endpoint rejects the request with a 500
error status, so a missing dependency credential does cause a request to be
rejected. -/
theorem c5_counterexample :
    (generateFeedbackPOST ⟨none, none, none, none⟩ (some "instruction_1") [] [] []
        (TextGenCall.ret "text")).response =
      GenFeedbackResponse.err 500
        "Gemini API key not configured. Please set GEMINI_API_KEY environment variable." := by
  rfl

/-- Claim C5 (amended): the upload endpoint never rejects a request because a
credential is absent (with a file present and no unexpected internal
exception it always reaches the degraded success response), but the
generate-feedback and fill-pmp-checklist sub-actions reject with a 500 error
status whenever `GEMINI_API_KEY` is unset. -/
theorem c5_amended_degradation_except_subactions :
    (∀ (env : Env) (f : IncomingFile) (iid : Option String) (im : Option InstrMeta)
        (fsv : FsView) (now : String) (d : DriveCall) (g : GeminiCall),
      ∃ r, (uploadPOST env (some f) iid im fsv now d g none).1 = UploadResponse.ok r) ∧
    (∀ (env : Env) (iid : Option String) (cache : List (String × InstructionData))
        (dm : List (String × InstructionMetadata)) (dc : List (String × String))
        (gen : TextGenCall),
      env.geminiApiKey = none → truthyStr iid = true →
      (generateFeedbackPOST env iid cache dm dc gen).response =
        GenFeedbackResponse.err 500
          "Gemini API key not configured. Please set GEMINI_API_KEY environment variable." ∧
      (fillChecklistPOST env iid cache dm dc gen).response =
        FillChecklistResponse.err 500
          "Gemini API key not configured. Please set GEMINI_API_KEY environment variable.") := by
  constructor
  · intro env f iid im fsv now d g
    exact ⟨_, rfl⟩
  · intro env iid cache dm dc gen hkey hid
    have hgm : ¬ env.hasGemini = true := by
      simp [Env.hasGemini, hkey, truthyStr]
    have hid' : ¬ truthyStr iid = false := by simp [hid]
    constructor
    · unfold generateFeedbackPOST
      rw [if_neg (by simp [hid]), if_pos (by simp [hgm])]
    · unfold fillChecklistPOST
      rw [if_neg (by simp [hid]), if_pos (by simp [hgm])]

theorem find_map_set (l : List (String × InstructionData)) (k : String) (v : InstructionData)
    (h : l.any (fun p => p.1 = k) = true) :
    (l.map (fun p => if p.1 = k then (k, v) else p)).find? (fun p => p.1 = k) = some (k, v) := by
  induction l with
  | nil => simp at h
  | cons p ps ih =>
    by_cases hp : p.1 = k
    · simp [List.find?, hp]
    · have h' : ps.any (fun p => p.1 = k) = true := by
        simp [List.any_cons, hp] at h
        simpa using h
      simp only [List.map_cons, if_neg hp, List.find?, decide_eq_false hp]
      exact ih h'

theorem find_append_new (l : List (String × InstructionData)) (k : String) (v : InstructionData)
    (h : l.any (fun p => p.1 = k) = false) :
    (l ++ [(k, v)]).find? (fun p => p.1 = k) = some (k, v) := by
  induction l with
  | nil => simp [List.find?]
  | cons p ps ih =>
    have hp : ¬ p.1 = k := by
      intro hc
      simp [List.any_cons, hc] at h
    have h' : ps.any (fun p => p.1 = k) = false := by
      simp [List.any_cons, hp] at h
      simpa using h
    simp only [List.cons_append, List.find?, decide_eq_false hp]
    exact ih h'

/-- `Map.set` followed by `Map.get` yields the new value. -/
theorem cacheGet_cacheSet (cache : List (String × InstructionData)) (k : String)
    (v : InstructionData) : cacheGet (cacheSet cache k v) k = some v := by
  unfold cacheGet cacheSet
  by_cases h : cache.any (fun p => p.1 = k)
  · rw [if_pos h, find_map_set cache k v h]
    rfl
  · have hf : cache.any (fun p => p.1 = k) = false := by
      revert h
      cases cache.any (fun p => p.1 = k) <;> simp
    rw [if_neg h, find_append_new cache k v hf]
    rfl

theorem containsSub_middle (a s b : String) : containsSub (a ++ s ++ b) s = true := by
  unfold containsSub
  rw [List.any_eq_true]
  refine ⟨s.data ++ b.data, ?_, ?_⟩
  · rw [List.mem_tails]
    exact ⟨a.data, by simp [String.data_append]⟩
  · rw [ List.isPrefixOf_iff_prefix]
    exact ⟨b.data, rfl⟩

/-- Claim C7: creating an instruction whose filename ends (case-insensitively)
in a recognized text extension stores exactly the uploaded bytes decoded as
UTF-8 — in particular the UTF-8 encoding of any string round-trips to that
string, in the response and in the stored record; any other filename stores
the fixed binary placeholder, which contains the original filename. -/
theorem c7_instruction_content_roundtrip :
    (∀ (name s : String) (nowMs : Nat) (nowIso : String) (drive : DriveCall)
        (cache : List (String × InstructionData)) (dw lw : Bool),
      isTextUploadName name = true →
      ∃ r, (instructionsPOST (some ⟨name, utf8Encode s⟩) nowMs nowIso drive cache dw lw
            none).response = InstrPostResponse.ok r ∧
        r.content = s ∧
        ∃ d, cacheGet (instructionsPOST (some ⟨name, utf8Encode s⟩) nowMs nowIso drive cache dw lw
              none).cache ("instruction_" ++ toString nowMs) = some d ∧
          d.content = s ∧ d.fileName = name) ∧
    (∀ (name : String) (bytes : List Nat) (nowMs : Nat) (nowIso : String) (drive : DriveCall)
        (cache : List (String × InstructionData)) (dw lw : Bool),
      isTextUploadName name = false →
      ∃ r, (instructionsPOST (some ⟨name, bytes⟩) nowMs nowIso drive cache dw lw
            none).response = InstrPostResponse.ok r ∧
        r.content =
          "[Binary file: " ++ name ++ "] - Content will be processed by AI when analyzing files." ∧
        containsSub r.content name = true) := by
  constructor
  · intro name s nowMs nowIso drive cache dw lw ht
    have hc : instructionContentOf ⟨name, utf8Encode s⟩ = s := by
      simp [instructionContentOf, ht, utf8Decode_encode]
    exact ⟨_, rfl, hc, _, cacheGet_cacheSet cache _ _, hc, rfl⟩
  · intro name bytes nowMs nowIso drive cache dw lw hb
    have hc : instructionContentOf ⟨name, bytes⟩ =
        "[Binary file: " ++ name ++ "] - Content will be processed by AI when analyzing files." := by
      simp [instructionContentOf, hb]
    refine ⟨_, rfl, hc, ?_⟩
    show containsSub (instructionContentOf ⟨name, bytes⟩) name = true
    rw [hc]
    exact containsSub_middle "[Binary file: " name
      "] - Content will be processed by AI when analyzing files."

/-- Claim C8 counterexample: an existing record whose checklist holds one old
item is regenerated from an AI response parsing to a three-item checklist; the
stored checklist then has 3 items, not the fixed 8-item compliance structure. -/
theorem c8_counterexample :
    ∃ d, cacheGet (fillChecklistPOST ⟨none, none, none, some "key"⟩ (some "instruction_1")
        [("instruction_1",
          { id := "instruction_1", fileName := "a.txt", content := "c",
            publicUrl := none, directUrl := none, fileId := none,
            createdAt := "t", hasGoogleDriveBackup := false,
            pmpChecklist := some (Json.arr [Json.str "OLD"]) })]
        [] [] (TextGenCall.ret "\x7b\"checklist\":[1,2,3]\x7d")).cache "instruction_1" =
      some d ∧
    d.pmpChecklist.map Json.arity = some 3 := by
  exact ⟨_, rfl, rfl⟩

/-- Claim C8 (amended): regenerating the checklist of a cached instruction
fully replaces the stored checklist with the value parsed from the new AI
response — independent of the previous checklist — and the endpoint echoes
exactly that value; the result is the fixed 8-item structure only in the
parse-failure fallback, otherwise it is whatever list the AI returned. -/
theorem c8_amended_full_replacement (env : Env) (id : String) (cached : InstructionData)
    (cache : List (String × InstructionData)) (dm : List (String × InstructionMetadata))
    (dc : List (String × String)) (text : String)
    (hkey : env.hasGemini = true) (hid : id ≠ "")
    (hc : cacheGet cache id = some cached) (ht : text ≠ "") :
    (fillChecklistPOST env (some id) cache dm dc (TextGenCall.ret text)).response =
      FillChecklistResponse.ok (parsePmpChecklist text)
        { metaOfCached cached with pmpChecklist := some (parsePmpChecklist text) } ∧
    cacheGet (fillChecklistPOST env (some id) cache dm dc (TextGenCall.ret text)).cache id =
      some { cached with pmpChecklist := some (parsePmpChecklist text) } := by
  have htr : truthyStr (some id) = true := by simp [truthyStr, hid]
  constructor
  · unfold fillChecklistPOST
    rw [if_neg (by simp [htr]), if_neg (by simp [hkey])]
    simp only [Option.getD_some]
    rw [hc]
    dsimp only
    rw [if_neg (by simp [ht])]
  · unfold fillChecklistPOST
    rw [if_neg (by simp [htr]), if_neg (by simp [hkey])]
    simp only [Option.getD_some]
    rw [hc]
    dsimp only
    rw [if_neg (by simp [ht])]
    exact cacheGet_cacheSet cache _ _

/-- Claim C9 (spec-modelled): deleting an instruction id absent from the store
returns the not-found indication and leaves the store unmodified. -/
theorem c9_delete_missing_id_unchanged (st : InstructionStore) (i : String)
    (h : storeHasId st i = false) :
    deleteInstructionModel st (some i) = (DeleteResponse.notFound, st) := by
  unfold deleteInstructionModel
  dsimp only
  rw [if_neg (by simp [h])]

/-- Claim C9 witness at the empty store. -/
theorem c9_witness :
    storeHasId ⟨[], [], []⟩ "instruction_1" = false ∧
    deleteInstructionModel ⟨[], [], []⟩ (some "instruction_1") =
      (DeleteResponse.notFound, ⟨[], [], []⟩) :=
  ⟨by decide, c9_delete_missing_id_unchanged ⟨[], [], []⟩ "instruction_1" (by decide)⟩

/-- Claim C10 counterexample: an AI response with no brace-delimited substring
cannot be parsed as JSON containing a checklist, yet the stored checklist
becomes the empty list — zero items, not the 8-item `Not Found` fallback —
and the endpoint still returns success. -/
theorem c10_counterexample :
    (∃ d, cacheGet (fillChecklistPOST ⟨none, none, none, some "key"⟩ (some "instruction_1")
        [("instruction_1",
          { id := "instruction_1", fileName := "a.txt", content := "c",
            publicUrl := none, directUrl := none, fileId := none,
            createdAt := "t", hasGoogleDriveBackup := false })]
        [] [] (TextGenCall.ret "no json here")).cache "instruction_1" = some d ∧
      d.pmpChecklist = some (Json.arr [])) ∧
    ∃ md, (fillChecklistPOST ⟨none, none, none, some "key"⟩ (some "instruction_1")
        [("instruction_1",
          { id := "instruction_1", fileName := "a.txt", content := "c",
            publicUrl := none, directUrl := none, fileId := none,
            createdAt := "t", hasGoogleDriveBackup := false })]
        [] [] (TextGenCall.ret "no json here")).response =
      FillChecklistResponse.ok (Json.arr []) md := by
  exact ⟨⟨_, rfl, rfl⟩, ⟨_, rfl⟩⟩

/-- Claim C10 (amended): when the AI response contains a brace-delimited
substring on which `JSON.parse` throws, the stored checklist becomes the
fixed fallback of exactly 8 items numbered 1..8, each with compliance
`Not Found` and the parse-failure remark, and the endpoint returns success;
when no brace-delimited substring exists (or the parsed JSON lacks a truthy
`checklist` member) the stored checklist is empty instead. -/
theorem c10_amended_fallback_checklist (env : Env) (id : String) (cached : InstructionData)
    (cache : List (String × InstructionData)) (dm : List (String × InstructionMetadata))
    (dc : List (String × String)) (text m : String)
    (hkey : env.hasGemini = true) (hid : id ≠ "")
    (hc : cacheGet cache id = some cached) (ht : text ≠ "")
    (hm : jsonMatchJs text = some m) (hp : jsonParse m = none) :
    (fillChecklistPOST env (some id) cache dm dc (TextGenCall.ret text)).response =
      FillChecklistResponse.ok (Json.arr fallback8)
        { metaOfCached cached with pmpChecklist := some (Json.arr fallback8) } ∧
    cacheGet (fillChecklistPOST env (some id) cache dm dc (TextGenCall.ret text)).cache id =
      some { cached with pmpChecklist := some (Json.arr fallback8) } ∧
    fallback8.length = 8 ∧
    (∀ i, i < 8 →
      (fallback8.getD i Json.null).getField "srNo" = some (Json.num (Int.ofNat (i + 1))) ∧
      (fallback8.getD i Json.null).getField "compliance" = some (Json.str "Not Found") ∧
      (fallback8.getD i Json.null).getField "remark" =
        some (Json.str "AI analysis failed to parse response")) := by
  have hpc : parsePmpChecklist text = Json.arr fallback8 := by
    unfold parsePmpChecklist
    rw [hm]
    dsimp only
    rw [hp]
  have htr : truthyStr (some id) = true := by simp [truthyStr, hid]
  refine ⟨?_, ?_, by decide, ?_⟩
  · unfold fillChecklistPOST
    rw [if_neg (by simp [htr]), if_neg (by simp [hkey])]
    simp only [Option.getD_some]
    rw [hc]
    dsimp only
    rw [if_neg (by simp [ht])]
    dsimp only
    rw [hpc]
  · unfold fillChecklistPOST
    rw [if_neg (by simp [htr]), if_neg (by simp [hkey])]
    simp only [Option.getD_some]
    rw [hc]
    dsimp only
    rw [if_neg (by simp [ht])]
    dsimp only
    rw [show (cacheSet cache id { cached with pmpChecklist := some (parsePmpChecklist text) }) =
        (cacheSet cache id { cached with pmpChecklist := some (Json.arr fallback8) }) from by
      rw [hpc]]
    exact cacheGet_cacheSet cache _ _
  · intro i hi
    interval_cases i <;> exact ⟨rfl, rfl, rfl⟩

/-- Claim C2 witness at a concrete fully-configured request. -/
theorem c2_witness :
    ∃ res, (uploadPOST ⟨some "p", some "k", some "e", some "g"⟩ (some ⟨"a.txt", [97]⟩) none none
        ⟨some ⟨1, "m"⟩, some "x"⟩ "T"
        (DriveCall.ret ⟨some "id1", some "pub", some "dir", true, none⟩)
        (GeminiCall.ret ⟨true, "AI feedback", "T2"⟩) none).1 = UploadResponse.ok res ∧
      res.analysis = GeminiAnalysis.toAnalysisResult ⟨true, "AI feedback", "T2"⟩ ∧
      res.serviceStatus.geminiAnalysis = "success" :=
  c2_ai_supersedes_local ⟨some "p", some "k", some "e", some "g"⟩ ⟨"a.txt", [97]⟩ none none
    ⟨some ⟨1, "m"⟩, some "x"⟩ "T"
    (DriveCall.ret ⟨some "id1", some "pub", some "dir", true, none⟩)
    (GeminiCall.ret ⟨true, "AI feedback", "T2"⟩)
    ⟨some "id1", some "pub", some "dir", true, none⟩ ⟨true, "AI feedback", "T2"⟩
    (by decide) (by decide) rfl rfl (by decide) rfl rfl

/-- Claim C3 witness: storage configured and succeeding, Gemini key absent. -/
theorem c3_witness :
    ∃ res, (uploadPOST ⟨some "p", some "k", some "e", none⟩ (some ⟨"a.txt", [97]⟩) none none
        ⟨some ⟨1, "m"⟩, some "x"⟩ "T"
        (DriveCall.ret ⟨some "id1", some "pub", some "dir", true, none⟩)
        (GeminiCall.exn "unused") none).1 = UploadResponse.ok res ∧
      res.analysis =
        LocalAnalyzer.analyzeFile ⟨some ⟨1, "m"⟩, some "x"⟩ "a.txt"
          ((resolveInstructionUrl none none).getD "") "T" ∧
      res.serviceStatus.geminiAnalysis = "Gemini API not configured" :=
  c3_local_when_gemini_unconfigured ⟨some "p", some "k", some "e", none⟩ ⟨"a.txt", [97]⟩ none none
    ⟨some ⟨1, "m"⟩, some "x"⟩ "T"
    (DriveCall.ret ⟨some "id1", some "pub", some "dir", true, none⟩) (GeminiCall.exn "unused")
    ⟨some "id1", some "pub", some "dir", true, none⟩
    (by decide) rfl rfl rfl

/-- Claim C4 witness: no storage credential configured. -/
theorem c4_witness :
    ∃ res, (uploadPOST ⟨none, none, none, none⟩ (some ⟨"a.txt", [97]⟩) none none
        ⟨some ⟨1, "m"⟩, some "x"⟩ "T" (DriveCall.exn "unused") (GeminiCall.exn "unused")
        none).1 = UploadResponse.ok res ∧
      res.file.fileId = none ∧ res.file.publicUrl = none ∧ res.file.directUrl = none ∧
      res.serviceStatus.googleDrive = "Google Drive not configured" :=
  c4_storage_unconfigured_null_urls ⟨none, none, none, none⟩ ⟨"a.txt", [97]⟩ none none
    ⟨some ⟨1, "m"⟩, some "x"⟩ "T" (DriveCall.exn "unused") (GeminiCall.exn "unused")
    rfl rfl rfl

/-- Claim C5 witness: the upload endpoint degrades to success with every
credential absent and both external calls throwing, while the two sub-actions
reject with 500 for the same missing key. -/
theorem c5_witness :
    (∃ r, (uploadPOST ⟨none, none, none, none⟩ (some ⟨"a.txt", [97]⟩) none none
        ⟨some ⟨1, "m"⟩, some "x"⟩ "T" (DriveCall.exn "boom") (GeminiCall.exn "boom") none).1 =
      UploadResponse.ok r) ∧
    ((generateFeedbackPOST ⟨none, none, none, none⟩ (some "instruction_1") [] [] []
        (TextGenCall.ret "t")).response =
      GenFeedbackResponse.err 500
        "Gemini API key not configured. Please set GEMINI_API_KEY environment variable." ∧
     (fillChecklistPOST ⟨none, none, none, none⟩ (some "instruction_1") [] [] []
        (TextGenCall.ret "t")).response =
      FillChecklistResponse.err 500
        "Gemini API key not configured. Please set GEMINI_API_KEY environment variable.") :=
  ⟨c5_amended_degradation_except_subactions.1 ⟨none, none, none, none⟩ ⟨"a.txt", [97]⟩ none none
      ⟨some ⟨1, "m"⟩, some "x"⟩ "T" (DriveCall.exn "boom") (GeminiCall.exn "boom"),
   c5_amended_degradation_except_subactions.2 ⟨none, none, none, none⟩ (some "instruction_1")
      [] [] [] (TextGenCall.ret "t") rfl (by decide)⟩

/-- Claim C7 witness: a `.TXT` name round-trips a multi-byte string; a `.bin`
name stores the placeholder containing the filename. -/
theorem c7_witness :
    isTextUploadName "notes.TXT" = true ∧
    (∃ r, (instructionsPOST (some ⟨"notes.TXT", utf8Encode "héllo ✓"⟩) 5 "T"
          (DriveCall.exn "no drive") [] true true none).response = InstrPostResponse.ok r ∧
        r.content = "héllo ✓" ∧
        ∃ d, cacheGet (instructionsPOST (some ⟨"notes.TXT", utf8Encode "héllo ✓"⟩) 5 "T"
              (DriveCall.exn "no drive") [] true true none).cache
            ("instruction_" ++ toString 5) = some d ∧
          d.content = "héllo ✓" ∧ d.fileName = "notes.TXT") ∧
    isTextUploadName "data.bin" = false ∧
    (∃ r, (instructionsPOST (some ⟨"data.bin", [0, 255]⟩) 5 "T"
          (DriveCall.exn "no drive") [] true true none).response = InstrPostResponse.ok r ∧
        r.content =
          "[Binary file: " ++ "data.bin" ++
            "] - Content will be processed by AI when analyzing files." ∧
        containsSub r.content "data.bin" = true) :=
  ⟨by decide,
   c7_instruction_content_roundtrip.1 "notes.TXT" "héllo ✓" 5 "T" (DriveCall.exn "no drive")
     [] true true (by decide),
   by decide,
   c7_instruction_content_roundtrip.2 "data.bin" [0, 255] 5 "T" (DriveCall.exn "no drive")
     [] true true (by decide)⟩

/-- Claim C8 witness at a concrete cached record and three-item AI response. -/
theorem c8_witness :
    (fillChecklistPOST ⟨none, none, none, some "key"⟩ (some "instruction_1")
        [("instruction_1",
          { id := "instruction_1", fileName := "a.txt", content := "c",
            publicUrl := none, directUrl := none, fileId := none,
            createdAt := "t", hasGoogleDriveBackup := false,
            pmpChecklist := some (Json.arr [Json.str "OLD"]) })]
        [] [] (TextGenCall.ret "\x7b\"checklist\":[1,2,3]\x7d")).response =
      FillChecklistResponse.ok (parsePmpChecklist "\x7b\"checklist\":[1,2,3]\x7d")
        { metaOfCached
            { id := "instruction_1", fileName := "a.txt", content := "c",
              publicUrl := none, directUrl := none, fileId := none,
              createdAt := "t", hasGoogleDriveBackup := false,
              pmpChecklist := some (Json.arr [Json.str "OLD"]) } with
          pmpChecklist := some (parsePmpChecklist "\x7b\"checklist\":[1,2,3]\x7d") } ∧
    cacheGet (fillChecklistPOST ⟨none, none, none, some "key"⟩ (some "instruction_1")
        [("instruction_1",
          { id := "instruction_1", fileName := "a.txt", content := "c",
            publicUrl := none, directUrl := none, fileId := none,
            createdAt := "t", hasGoogleDriveBackup := false,
            pmpChecklist := some (Json.arr [Json.str "OLD"]) })]
        [] [] (TextGenCall.ret "\x7b\"checklist\":[1,2,3]\x7d")).cache "instruction_1" =
      some { ({ id := "instruction_1", fileName := "a.txt", content := "c",
                publicUrl := none, directUrl := none, fileId := none,
                createdAt := "t", hasGoogleDriveBackup := false,
                pmpChecklist := some (Json.arr [Json.str "OLD"]) } : InstructionData) with
             pmpChecklist := some (parsePmpChecklist "\x7b\"checklist\":[1,2,3]\x7d") } :=
  c8_amended_full_replacement ⟨none, none, none, some "key"⟩ "instruction_1"
    { id := "instruction_1", fileName := "a.txt", content := "c",
      publicUrl := none, directUrl := none, fileId := none,
      createdAt := "t", hasGoogleDriveBackup := false,
      pmpChecklist := some (Json.arr [Json.str "OLD"]) }
    [("instruction_1",
      { id := "instruction_1", fileName := "a.txt", content := "c",
        publicUrl := none, directUrl := none, fileId := none,
        createdAt := "t", hasGoogleDriveBackup := false,
        pmpChecklist := some (Json.arr [Json.str "OLD"]) })]
    [] [] "\x7b\"checklist\":[1,2,3]\x7d" (by decide) (by decide) rfl (by decide)

/-- Claim C10 witness at a concrete cached record and unparsable braced
response. -/
theorem c10_witness :
    (fillChecklistPOST ⟨none, none, none, some "key"⟩ (some "instruction_1")
        [("instruction_1",
          { id := "instruction_1", fileName := "a.txt", content := "c",
            publicUrl := none, directUrl := none, fileId := none,
            createdAt := "t", hasGoogleDriveBackup := false })]
        [] [] (TextGenCall.ret "x \x7b bad \x7d y")).response =
      FillChecklistResponse.ok (Json.arr fallback8)
        { metaOfCached
            { id := "instruction_1", fileName := "a.txt", content := "c",
              publicUrl := none, directUrl := none, fileId := none,
              createdAt := "t", hasGoogleDriveBackup := false } with
          pmpChecklist := some (Json.arr fallback8) } ∧
    cacheGet (fillChecklistPOST ⟨none, none, none, some "key"⟩ (some "instruction_1")
        [("instruction_1",
          { id := "instruction_1", fileName := "a.txt", content := "c",
            publicUrl := none, directUrl := none, fileId := none,
            createdAt := "t", hasGoogleDriveBackup := false })]
        [] [] (TextGenCall.ret "x \x7b bad \x7d y")).cache "instruction_1" =
      some { ({ id := "instruction_1", fileName := "a.txt", content := "c",
                publicUrl := none, directUrl := none, fileId := none,
                createdAt := "t", hasGoogleDriveBackup := false } : InstructionData) with
             pmpChecklist := some (Json.arr fallback8) } ∧
    fallback8.length = 8 ∧
    (∀ i, i < 8 →
      (fallback8.getD i Json.null).getField "srNo" = some (Json.num (Int.ofNat (i + 1))) ∧
      (fallback8.getD i Json.null).getField "compliance" = some (Json.str "Not Found") ∧
      (fallback8.getD i Json.null).getField "remark" =
        some (Json.str "AI analysis failed to parse response")) :=
  c10_amended_fallback_checklist ⟨none, none, none, some "key"⟩ "instruction_1"
    { id := "instruction_1", fileName := "a.txt", content := "c",
      publicUrl := none, directUrl := none, fileId := none,
      createdAt := "t", hasGoogleDriveBackup := false }
    [("instruction_1",
      { id := "instruction_1", fileName := "a.txt", content := "c",
        publicUrl := none, directUrl := none, fileId := none,
        createdAt := "t", hasGoogleDriveBackup := false })]
    [] [] "x \x7b bad \x7d y" "\x7b bad \x7d" (by decide) (by decide) rfl (by decide) rfl rfl
